import Mathlib

/-!
Verification development for the recator duplicate-detection engine.
The definitions below are shallow embeddings of src/recator/hashing.py and
src/recator/detector.py (plus the difflib.SequenceMatcher ratio that
detector._line_similarity delegates to).  Machine integers are modelled as
Nat with explicit 64-bit masking; Python floats are modelled as rationals;
Python dicts with optional keys are modelled as structures with Option
fields; Python dict iteration order (insertion order) is modelled by
insertion-ordered association lists.  Regular expressions over ASCII text
are modelled by direct character scanners; the ASCII fragment is what every
claim under test exercises.
-/

/-- Named characters, so that quote and brace characters never appear as
literals in the source text of this file. -/
def sqC : Char := Char.ofNat 39

def dqC : Char := Char.ofNat 34

def bsC : Char := Char.ofNat 92

def obC : Char := Char.ofNat 123

def cbC : Char := Char.ofNat 125

def btC : Char := Char.ofNat 96

def sqS : String := String.singleton sqC

/-! ## Stable hashing (src/recator/hashing.py) -/

/-- FNV-1a 64-bit offset basis, as in hashing.FNV_64_OFFSET. -/
def FNV_64_OFFSET : Nat := 14695981039346656037

/-- FNV-1a 64-bit prime, as in hashing.FNV_64_PRIME. -/
def FNV_64_PRIME : Nat := 1099511628211

/-- Embedding of hashing.fnv1a_64: bytes are naturals below 256, the
accumulator is masked to 64 bits after each multiplication exactly as the
Python source masks with 0xFFFFFFFFFFFFFFFF. -/
def fnv1a_64 (data : List Nat) : Nat :=
  data.foldl (fun h b => ((h ^^^ b) * FNV_64_PRIME) &&& 0xFFFFFFFFFFFFFFFF) FNV_64_OFFSET

/-- Hex digit for a nibble, lowercase as Python format x produces. -/
def hexDigit (n : Nat) : Char :=
  if n < 10 then Char.ofNat (48 + n) else Char.ofNat (87 + n)

/-- Fixed-width 16-digit lowercase hex rendering, Python format 016x for a
value below 2^64. -/
def toHex64 (h : Nat) : String :=
  String.mk ((List.range 16).map (fun i => hexDigit (h / 16 ^ (15 - i) % 16)))

/-- UTF-8 encoding of one scalar value, the byte sequence Python's
str.encode produces for the corresponding code point. -/
def utf8EncodeCharNat (c : Char) : List Nat :=
  let n := c.toNat
  if n < 0x80 then [n]
  else if n < 0x800 then
    [0xC0 ||| (n >>> 6), 0x80 ||| (n &&& 0x3F)]
  else if n < 0x10000 then
    [0xE0 ||| (n >>> 12), 0x80 ||| ((n >>> 6) &&& 0x3F), 0x80 ||| (n &&& 0x3F)]
  else
    [0xF0 ||| (n >>> 18), 0x80 ||| ((n >>> 12) &&& 0x3F),
     0x80 ||| ((n >>> 6) &&& 0x3F), 0x80 ||| (n &&& 0x3F)]

/-- UTF-8 bytes of a string.  Lean strings hold only valid scalar values,
so the errors-ignore branch of hashing.stable_hash_text never fires here. -/
def utf8Bytes (s : String) : List Nat :=
  s.data.flatMap utf8EncodeCharNat

/-- Embedding of hashing.stable_hash_bytes. -/
def stable_hash_bytes (data : List Nat) : String :=
  toHex64 (fnv1a_64 data)

/-- Embedding of hashing.stable_hash_text. -/
def stable_hash_text (text : String) : String :=
  stable_hash_bytes (utf8Bytes text)

/-- Unit separator used by hashing.stable_hash_tokens. -/
def unitSep : String := "\x1f"

/-- Embedding of hashing.stable_hash_tokens. -/
def stable_hash_tokens (tokens : List String) : String :=
  stable_hash_text (String.intercalate unitSep tokens)

/-! ## Python string helpers -/

/-- ASCII whitespace recognised by Python str.strip and the regex class
backslash-s (space, tab, newline, carriage return, vertical tab, form
feed); the development models the ASCII fragment. -/
def isPyWs (c : Char) : Bool :=
  c = ' ' || c = '\t' || c = '\n' || c = '\r' || c = '\x0b' || c = '\x0c'

/-- Python str.strip on the ASCII whitespace set. -/
def pyStrip (s : String) : String :=
  String.mk (((s.data.dropWhile isPyWs).reverse.dropWhile isPyWs).reverse)

/-- Collapse every maximal whitespace run to one space: the substitution
re.sub of one-or-more whitespace by a single space.  The boolean argument
records whether the previous character was part of a whitespace run. -/
def collapseWsAux : Bool → List Char → List Char
  | _, [] => []
  | prevWs, c :: rest =>
    if isPyWs c then
      if prevWs then collapseWsAux true rest else ' ' :: collapseWsAux true rest
    else c :: collapseWsAux false rest

def collapseWs (s : String) : String :=
  String.mk (collapseWsAux false s.data)

/-- Python slice semantics s[i:j] for integer bounds with negative-index
wrapping and clamping. -/
def pySlice (l : List α) (i j : Int) : List α :=
  let n : Int := l.length
  let lo := if i < 0 then max 0 (n + i) else min i n
  let hi := if j < 0 then max 0 (n + j) else min j n
  if lo < hi then (l.drop lo.toNat).take (hi - lo).toNat else []

/-- Word characters of the ASCII fragment of the regex class backslash-w. -/
def isWordChar (c : Char) : Bool :=
  (97 ≤ c.toNat && c.toNat ≤ 122) || (65 ≤ c.toNat && c.toNat ≤ 90) ||
  (48 ≤ c.toNat && c.toNat ≤ 57) || c = '_'

def isAsciiDigitC (c : Char) : Bool := 48 ≤ c.toNat && c.toNat ≤ 57

def isLowerOrUnderscore (c : Char) : Bool :=
  (97 ≤ c.toNat && c.toNat ≤ 122) || c = '_'

def isUpperC (c : Char) : Bool := 65 ≤ c.toNat && c.toNat ≤ 90

/-- Maximal word runs of a character list: each element of the result is
either a run of word characters (inl) or a single non-word character (inr).
Fuel equals the list length, which suffices because every step consumes at
least one character. -/
def wordSplitAux : Nat → List Char → List (Sum (List Char) Char)
  | 0, _ => []
  | _, [] => []
  | fuel + 1, c :: rest =>
    if isWordChar c then
      let run := c :: rest.takeWhile isWordChar
      Sum.inl run :: wordSplitAux fuel (rest.dropWhile isWordChar)
    else
      Sum.inr c :: wordSplitAux fuel rest

def wordSplit (cs : List Char) : List (Sum (List Char) Char) :=
  wordSplitAux cs.length cs

/-- Replace every maximal word run satisfying the predicate by the given
replacement text.  This is the action of a regex substitution whose pattern
is word-boundary, a first-character class, a tail of word characters, then
word-boundary: such a pattern can only match an entire maximal word run
whose first character is in the class. -/
def substWordRuns (p : List Char → Bool) (repl : List Char) (s : String) : String :=
  String.mk ((wordSplit s.data).flatMap (fun piece =>
    match piece with
    | Sum.inl run => if p run then repl else run
    | Sum.inr c => [c]))

/-- All maximal word runs of a string, the matches of re.findall of
one-or-more word characters. -/
def wordRuns (s : String) : List String :=
  (wordSplit s.data).flatMap (fun piece =>
    match piece with
    | Sum.inl run => [String.mk run]
    | Sum.inr _ => [])

/-- Replace every region delimited by a pair of the quote character q by
the replacement, scanning left to right without overlap; an unclosed
opening quote matches nothing, as for the regex quote, non-quote star,
quote. -/
def replaceQuotedAux (q : Char) (repl : List Char) : Nat → List Char → List Char
  | 0, cs => cs
  | _, [] => []
  | fuel + 1, c :: rest =>
    if c = q then
      let inside := rest.takeWhile (fun d => d ≠ q)
      let after := rest.drop inside.length
      match after with
      | [] => c :: rest
      | _ :: tail => repl ++ replaceQuotedAux q repl fuel tail
    else c :: replaceQuotedAux q repl fuel rest

def replaceQuoted (q : Char) (repl : String) (s : String) : String :=
  String.mk (replaceQuotedAux q repl.data s.data.length s.data)

/-! ## Python repr and sorted -/

def hexPad2 (n : Nat) : List Char := [hexDigit (n / 16 % 16), hexDigit (n % 16)]

/-- Python repr of a string: single-quoted unless the string contains a
single quote and no double quote; backslash, the quote character, newline,
carriage return, tab and other control characters are escaped as Python
escapes them; printable characters are kept. -/
def pyReprStr (s : String) : String :=
  let q := if s.data.contains sqC && !(s.data.contains dqC) then dqC else sqC
  let esc := s.data.flatMap (fun c =>
    if c = bsC then [bsC, bsC]
    else if c = q then [bsC, q]
    else if c = '\n' then [bsC, 'n']
    else if c = '\r' then [bsC, 'r']
    else if c = '\t' then [bsC, 't']
    else if c.toNat < 32 || c.toNat = 127 then bsC :: 'x' :: hexPad2 c.toNat
    else [c])
  String.mk (q :: esc ++ [q])

/-- Python str of a list whose element renderings are already given. -/
def pyListRepr (rendered : List String) : String :=
  "[" ++ String.intercalate ", " rendered ++ "]"

/-- Python str of a dict given key names and already-rendered values, in
insertion order. -/
def pyDictRepr (fields : List (String × String)) : String :=
  String.singleton obC ++
    String.intercalate ", " (fields.map (fun kv => pyReprStr kv.1 ++ ": " ++ kv.2)) ++
    String.singleton cbC

/-- Python str of a float that is an exact decimal, which is the case for
every confidence and similarity value this development renders; other
rationals fall back to the stock rational rendering. -/
def pyFloatRepr (q : ℚ) : String :=
  if q.den = 1 then toString q.num ++ ".0"
  else
    match (List.range 30).find? (fun k => (q * 10 ^ (k + 1)).den = 1) with
    | some k =>
      let d := k + 1
      let scaled := (q * 10 ^ d).num.natAbs
      let sign := if q < 0 then "-" else ""
      let frac := toString (scaled % 10 ^ d)
      let pad := String.mk (List.replicate (d - frac.length) '0')
      sign ++ toString (scaled / 10 ^ d) ++ "." ++ pad ++ frac
    | none => toString q

/-- Insert a string into an ascending list, before the first strictly
greater element. -/
def insertSorted (x : String) : List String → List String
  | [] => [x]
  | y :: ys => if x < y then x :: y :: ys else y :: insertSorted x ys

/-- Python sorted for lists of strings (ascending code-point order). -/
def pySorted (l : List String) : List String :=
  l.foldr insertSorted []

/-! ## Insertion-ordered dictionaries (Python dict semantics) -/

/-- Append a value to the bucket of the given key, creating the bucket at
the end on first insertion; this is how a Python defaultdict(list) grows,
and iterating the resulting association list in order is exactly Python
dict iteration order. -/
def addToBucket [DecidableEq κ] : List (κ × List α) → κ → α → List (κ × List α)
  | [], k, v => [(k, [v])]
  | (k0, vs) :: rest, k, v =>
    if k = k0 then (k0, vs ++ [v]) :: rest else (k0, vs) :: addToBucket rest k v

/-- Build buckets from a sequence of key-value insertions. -/
def bucketsOf [DecidableEq κ] (items : List (κ × α)) : List (κ × List α) :=
  items.foldl (fun acc kv => addToBucket acc kv.1 kv.2) []

/-- Association-list lookup, Python dict get. -/
def alookup [DecidableEq κ] : List (κ × β) → κ → Option β
  | [], _ => none
  | (k, v) :: rest, key => if key = k then some v else alookup rest key

/-! ## difflib.SequenceMatcher with isjunk None (CPython), the algorithm
behind detector._line_similarity -/

/-- Index buckets of the second sequence, CPython chain b2j; when the
second sequence has at least 200 elements the autojunk heuristic removes
the elements occurring more than one percent of the time. -/
def b2jOf (b : List String) : List (String × List Nat) :=
  let base := b.enum.foldl (fun acc p => addToBucket acc p.2 p.1) []
  let n := b.length
  if 200 ≤ n then base.filter (fun kv => !(n / 100 + 1 < kv.2.length)) else base

/-- Extend a candidate block leftwards over adjacent equal elements whose
second-sequence element is (for the boolean true) or is not (for false)
in the junk set; fuel bounds the walk. -/
def extendLeft (a b : List String) (bjunk : List String) (wantJunk : Bool)
    (alo blo : Nat) : Nat → Nat × Nat × Nat → Nat × Nat × Nat
  | 0, st => st
  | fuel + 1, (bi, bj, bs) =>
    if alo < bi ∧ blo < bj ∧ (b.getD (bj - 1) "" ∈ bjunk) = (wantJunk = true) ∧
        a.getD (bi - 1) "" = b.getD (bj - 1) "" then
      extendLeft a b bjunk wantJunk alo blo fuel (bi - 1, bj - 1, bs + 1)
    else (bi, bj, bs)

/-- Extend a candidate block rightwards, mirror of extendLeft. -/
def extendRight (a b : List String) (bjunk : List String) (wantJunk : Bool)
    (ahi bhi : Nat) : Nat → Nat × Nat × Nat → Nat × Nat × Nat
  | 0, st => st
  | fuel + 1, (bi, bj, bs) =>
    if bi + bs < ahi ∧ bj + bs < bhi ∧ (b.getD (bj + bs) "" ∈ bjunk) = (wantJunk = true) ∧
        a.getD (bi + bs) "" = b.getD (bj + bs) "" then
      extendRight a b bjunk wantJunk ahi bhi fuel (bi, bj, bs + 1)
    else (bi, bj, bs)

/-- CPython SequenceMatcher.find_longest_match on the slice a[alo:ahi],
b[blo:bhi]: the dynamic-programming pass tracks, for each ending position,
the run length ending there, keeping the first longest block (earliest end
in a, then earliest end in b, which for maximal blocks is earliest start);
the four while loops then widen the best block over non-junk and junk
neighbourhoods.  The detector constructs the matcher with isjunk None, so
the junk set passed here is empty. -/
def find_longest_match (a b : List String) (b2j : List (String × List Nat))
    (bjunk : List String) (alo ahi blo bhi : Nat) : Nat × Nat × Nat :=
  let step := fun (st : Nat × Nat × Nat × (Nat → Nat)) (i : Nat) =>
    let js := (((alookup b2j (a.getD i "")).getD []).takeWhile (fun j => j < bhi)).filter
      (fun j => blo ≤ j)
    let inner := fun (st2 : Nat × Nat × Nat × (Nat → Nat)) (j : Nat) =>
      let k := (if j = 0 then 0 else st.2.2.2 (j - 1)) + 1
      let upd := fun j2 => if j2 = j then k else st2.2.2.2 j2
      if st2.2.2.1 < k then (i + 1 - k, j + 1 - k, k, upd)
      else (st2.1, st2.2.1, st2.2.2.1, upd)
    let res := js.foldl inner (st.1, st.2.1, st.2.2.1, fun _ => 0)
    res
  let dp := (List.range' alo (ahi - alo)).foldl step (alo, blo, 0, fun _ => 0)
  let fuel := a.length + b.length + 1
  let e1 := extendLeft a b bjunk false alo blo fuel (dp.1, dp.2.1, dp.2.2.1)
  let e2 := extendRight a b bjunk false ahi bhi fuel e1
  let e3 := extendLeft a b bjunk true alo blo fuel e2
  extendRight a b bjunk true ahi bhi fuel e3

/-- Stack-driven recursion of SequenceMatcher.get_matching_blocks; the
Python queue is popped from the end, so pushing the left then the right
subregion means the right subregion is processed first, modelled by a
head-first stack with the right subregion consed last.  Fuel bounds the
number of regions ever processed. -/
def matchingBlocksAux (a b : List String) (b2j : List (String × List Nat)) :
    Nat → List (Nat × Nat × Nat × Nat) → List (Nat × Nat × Nat) → List (Nat × Nat × Nat)
  | 0, _, acc => acc
  | _, [], acc => acc
  | fuel + 1, (alo, ahi, blo, bhi) :: stack, acc =>
    let m := find_longest_match a b b2j [] alo ahi blo bhi
    if m.2.2 = 0 then matchingBlocksAux a b b2j fuel stack acc
    else
      matchingBlocksAux a b b2j fuel
        ((m.1 + m.2.2, ahi, m.2.1 + m.2.2, bhi) :: (alo, m.1, blo, m.2.1) :: stack)
        (acc ++ [m])

/-- Lexicographic order on triples, the Python sort key for matching
blocks. -/
def tripleLe (x y : Nat × Nat × Nat) : Bool :=
  x.1 < y.1 ∨ (x.1 = y.1 ∧ (x.2.1 < y.2.1 ∨ (x.2.1 = y.2.1 ∧ x.2.2 ≤ y.2.2)))

def insertTriple (x : Nat × Nat × Nat) : List (Nat × Nat × Nat) → List (Nat × Nat × Nat)
  | [] => [x]
  | y :: ys => if tripleLe x y then x :: y :: ys else y :: insertTriple x ys

def sortTriples (l : List (Nat × Nat × Nat)) : List (Nat × Nat × Nat) :=
  l.foldr insertTriple []

/-- Merge adjacent matching blocks and append the terminating sentinel,
the tail of SequenceMatcher.get_matching_blocks. -/
def mergeAdjacent (la lb : Nat) (blocks : List (Nat × Nat × Nat)) : List (Nat × Nat × Nat) :=
  let fin := blocks.foldl
    (fun (st : (Nat × Nat × Nat) × List (Nat × Nat × Nat)) blk =>
      let (i1, j1, k1) := st.1
      let (i2, j2, k2) := blk
      if i1 + k1 = i2 ∧ j1 + k1 = j2 then ((i1, j1, k1 + k2), st.2)
      else ((i2, j2, k2), st.2 ++ if k1 ≠ 0 then [(i1, j1, k1)] else []))
    ((0, 0, 0), [])
  fin.2 ++ (if fin.1.2.2 ≠ 0 then [fin.1] else []) ++ [(la, lb, 0)]

/-- SequenceMatcher.get_matching_blocks for the two line sequences. -/
def get_matching_blocks (a b : List String) : List (Nat × Nat × Nat) :=
  let raw := matchingBlocksAux a b (b2jOf b) (a.length + b.length + 1)
    [(0, a.length, 0, b.length)] []
  mergeAdjacent a.length b.length (sortTriples raw)

/-- Embedding of detector._line_similarity: SequenceMatcher ratio, twice
the matched element count over the total length, and 1.0 for two empty
sequences. -/
def line_similarity (lines1 lines2 : List String) : ℚ :=
  let blocks := get_matching_blocks lines1 lines2
  let matchTotal : Nat := (blocks.map (fun t => t.2.2)).sum
  let total : Nat := lines1.length + lines2.length
  if total ≠ 0 then 2 * (matchTotal : ℚ) / (total : ℚ) else 1

/-! ## Data model -/

/-- Code block record produced by the external analyzer, the fields the
detector reads: kind, name, line span and optional body text (absent keys
and Python None are both Option.none). -/
structure CodeBlock where
  btype : String := "function"
  name : String
  start_line : Nat := 1
  end_line : Nat := 1
  body : Option String := none
deriving DecidableEq

/-- Parsed file record flowing into the detector; tokens and blocks are
optional because the matchers test for key presence before using them. -/
structure FileData where
  path : String
  content : String := ""
  lines : List String := []
  line_count : Nat := 0
  tokens : Option (List String) := none
  blocks : Option (List CodeBlock) := none
  extension : Option String := none
  language : Option String := none
deriving DecidableEq

/-- One occurrence inside a token_sequence group. -/
structure TokenOcc where
  file : String
  tokens : List String
  position : Nat
deriving DecidableEq

/-- A member of a blocks payload: exact_block and css_block members carry a
line span and content, similar_block members carry a block name under the
key name, structural members carry it under the key block. -/
inductive BlockEntry where
  | span (file : String) (start_line end_line : Nat) (content : String)
  | named (file name : String)
  | structEntry (file block : String)
deriving DecidableEq

/-- Duplicate group record; exactly the keys the corresponding Python dict
was built with are set to some. -/
structure Dup where
  dtype : String
  hash : Option String := none
  files : Option (List String) := none
  blocks : Option (List BlockEntry) := none
  groups : Option (List TokenOcc) := none
  count : Option Nat := none
  lines : Option Nat := none
  token_count : Option Nat := none
  similarity : Option ℚ := none
  confidence : ℚ
deriving DecidableEq

/-- Detector configuration after DuplicateDetector.__init__ has applied the
defaults min_lines 4, min_tokens 30, similarity_threshold 0.85. -/
structure Config where
  min_lines : Nat := 4
  min_tokens : Nat := 30
  similarity_threshold : ℚ := 85 / 100
deriving DecidableEq

/-- Python str of a blocks payload member, insertion-ordered dict keys. -/
def bentryRepr : BlockEntry → String
  | BlockEntry.span f s e c =>
    pyDictRepr [("file", pyReprStr f), ("start_line", toString s),
                ("end_line", toString e), ("content", pyReprStr c)]
  | BlockEntry.named f n =>
    pyDictRepr [("file", pyReprStr f), ("name", pyReprStr n)]
  | BlockEntry.structEntry f b =>
    pyDictRepr [("file", pyReprStr f), ("block", pyReprStr b)]

/-- Python str of a token occurrence dict. -/
def tokenOccRepr (t : TokenOcc) : String :=
  pyDictRepr [("file", pyReprStr t.file),
              ("tokens", pyListRepr (t.tokens.map pyReprStr)),
              ("position", toString t.position)]

/-- Python str of a whole duplicate-group dict.  Every variant constructs
its dict with keys in a fixed order that is a subsequence of type, hash,
files, blocks, groups, count, lines, token_count, similarity, confidence,
so rendering present keys in that order reproduces the Python string. -/
def pyDupRepr (d : Dup) : String :=
  pyDictRepr
    ([("type", pyReprStr d.dtype)]
      ++ (match d.hash with | some h => [("hash", pyReprStr h)] | none => [])
      ++ (match d.files with
          | some fs => [("files", pyListRepr (fs.map pyReprStr))] | none => [])
      ++ (match d.blocks with
          | some bs => [("blocks", pyListRepr (bs.map bentryRepr))] | none => [])
      ++ (match d.groups with
          | some gs => [("groups", pyListRepr (gs.map tokenOccRepr))] | none => [])
      ++ (match d.count with | some n => [("count", toString n)] | none => [])
      ++ (match d.lines with | some n => [("lines", toString n)] | none => [])
      ++ (match d.token_count with
          | some n => [("token_count", toString n)] | none => [])
      ++ (match d.similarity with
          | some q => [("similarity", pyFloatRepr q)] | none => [])
      ++ [("confidence", pyFloatRepr d.confidence)])

/-! ## DuplicateDetector (src/recator/detector.py) -/

/-- Embedding of detector._compute_content_hash: strip, collapse
whitespace runs to single spaces, then stable-hash the text. -/
def compute_content_hash (content : String) : String :=
  stable_hash_text (collapseWs (pyStrip content))

/-- Whole-file exact duplicates: group files by normalized content hash in
insertion order and emit one exact group per bucket with two or more
files, carrying the first bucket member's line count. -/
def findExactWholeFile (pf : List FileData) : List Dup :=
  let buckets := bucketsOf (pf.map (fun fd => (compute_content_hash fd.content, fd)))
  (buckets.filter (fun b => 1 < b.2.length)).map (fun b =>
    { dtype := "exact"
      hash := some b.1
      files := some (b.2.map (fun fd => fd.path))
      count := some b.2.length
      lines := some ((b.2.map (fun fd => fd.line_count)).headD 0)
      confidence := 1 })

/-- Sliding-window items one file contributes to the exact-block pass:
every window of min_lines consecutive lines, skipping windows where fewer
than half the lines are non-blank, keyed by the hash of the joined text. -/
def blockWindowItems (cfg : Config) (fd : FileData) : List (String × BlockEntry) :=
  (List.range (fd.lines.length + 1 - cfg.min_lines)).filterMap (fun i =>
    let block := (fd.lines.drop i).take cfg.min_lines
    if ((block.countP (fun line => pyStrip line ≠ "")) : ℚ) < (cfg.min_lines : ℚ) * (1 / 2)
    then none
    else
      let blockText := String.intercalate "\n" block
      some (stable_hash_text blockText,
            BlockEntry.span fd.path (i + 1) (i + cfg.min_lines) blockText))

/-- Embedding of detector._find_exact_block_duplicates. -/
def find_exact_block_duplicates (cfg : Config) (pf : List FileData) : List Dup :=
  let buckets := bucketsOf (pf.flatMap (blockWindowItems cfg))
  (buckets.filter (fun b => 1 < b.2.length)).map (fun b =>
    { dtype := "exact_block"
      hash := some b.1
      blocks := some b.2
      count := some b.2.length
      lines := some cfg.min_lines
      confidence := 1 })

/-- Embedding of detector.find_exact_duplicates: whole-file groups then
block groups. -/
def find_exact_duplicates (cfg : Config) (pf : List FileData) : List Dup :=
  findExactWholeFile pf ++ find_exact_block_duplicates cfg pf

/-- Token windows one file contributes to the token-sequence pass; a file
without a tokens key contributes nothing. -/
def tokenWindowItems (cfg : Config) (fd : FileData) : List (String × TokenOcc) :=
  match fd.tokens with
  | none => []
  | some toks =>
    (List.range (toks.length + 1 - cfg.min_tokens)).map (fun i =>
      let subseq := (toks.drop i).take cfg.min_tokens
      (stable_hash_tokens subseq, { file := fd.path, tokens := subseq, position := i }))

/-- Embedding of detector.find_token_duplicates. -/
def find_token_duplicates (cfg : Config) (pf : List FileData) : List Dup :=
  let buckets := bucketsOf (pf.flatMap (tokenWindowItems cfg))
  (buckets.filter (fun b => 1 < b.2.length)).map (fun b =>
    { dtype := "token_sequence"
      hash := some b.1
      groups := some b.2
      count := some b.2.length
      token_count := some cfg.min_tokens
      confidence := 9 / 10 })

/-- Embedding of detector._token_similarity: Jaccard index of the two
token sets, 0.0 when both sets are empty. -/
def token_similarity (tokens1 tokens2 : List String) : ℚ :=
  let set1 := tokens1.toFinset
  let set2 := tokens2.toFinset
  if set1 = ∅ ∧ set2 = ∅ then 0
  else
    let inter := set1 ∩ set2
    let union := set1 ∪ set2
    if union ≠ ∅ then (inter.card : ℚ) / (union.card : ℚ) else 0

/-- Embedding of detector._calculate_similarity: token similarity when
both records carry a tokens key, otherwise the line-based ratio. -/
def calculate_similarity (file1 file2 : FileData) : ℚ :=
  match file1.tokens, file2.tokens with
  | some t1, some t2 => token_similarity t1 t2
  | _, _ => line_similarity file1.lines file2.lines

/-- All ordered pairs with the first component strictly earlier in the
list, in the double-loop order of the Python enumerate pattern. -/
def orderedPairs : List α → List (α × α)
  | [] => []
  | x :: rest => rest.map (fun y => (x, y)) ++ orderedPairs rest

/-- The fuzzy group emitted for a scored file pair. -/
def mkFuzzy (f1 f2 : FileData) (sim : ℚ) : Dup :=
  { dtype := "fuzzy"
    files := some [f1.path, f2.path]
    similarity := some sim
    confidence := sim }

/-- File-pair half of detector.find_fuzzy_duplicates. -/
def fuzzyFilePairs (cfg : Config) (pf : List FileData) : List Dup :=
  (orderedPairs pf).filterMap (fun pr =>
    let sim := calculate_similarity pr.1 pr.2
    if cfg.similarity_threshold ≤ sim then some (mkFuzzy pr.1 pr.2 sim) else none)

/-- Embedding of detector._get_block_tokens: empty without a tokens key,
otherwise the word runs of the joined line slice of the block span. -/
def get_block_tokens (fd : FileData) (block : CodeBlock) : List String :=
  match fd.tokens with
  | none => []
  | some _ =>
    let s : Int := (block.start_line : Int)
    wordRuns (String.intercalate "\n" (pySlice fd.lines (s - 1) (block.end_line : Int)))

/-- Block inventory of detector._find_similar_blocks. -/
def allBlocks (pf : List FileData) : List (String × CodeBlock × List String) :=
  pf.flatMap (fun fd =>
    match fd.blocks with
    | none => []
    | some bs => bs.map (fun b => (fd.path, b, get_block_tokens fd b)))

/-- Embedding of detector._find_similar_blocks: pairwise Jaccard over
blocks with nonempty approximate token lists. -/
def find_similar_blocks (cfg : Config) (pf : List FileData) : List Dup :=
  (orderedPairs (allBlocks pf)).filterMap (fun pr =>
    if pr.1.2.2 ≠ [] ∧ pr.2.2.2 ≠ [] then
      let sim := token_similarity pr.1.2.2 pr.2.2.2
      if cfg.similarity_threshold ≤ sim then
        some { dtype := "similar_block"
               blocks := some [BlockEntry.named pr.1.1 pr.1.2.1.name,
                               BlockEntry.named pr.2.1 pr.2.2.1.name]
               similarity := some sim
               confidence := sim }
      else none
    else none)

/-- Embedding of detector.find_fuzzy_duplicates. -/
def find_fuzzy_duplicates (cfg : Config) (pf : List FileData) : List Dup :=
  fuzzyFilePairs cfg pf ++ find_similar_blocks cfg pf

/-- Embedding of detector._normalize_block: empty for an absent or empty
body, otherwise the four substitutions in source order — lowercase-leading
identifiers to VAR, uppercase-leading identifiers to FUNC, standalone
integer literals to NUM, double- then single-quoted strings to STR. -/
def normalize_block (block : CodeBlock) (_fd : FileData) : String :=
  match block.body with
  | none => ""
  | some body =>
    if body = "" then ""
    else
      let s1 := substWordRuns
        (fun run => match run with | c :: _ => isLowerOrUnderscore c | [] => false)
        "VAR".data body
      let s2 := substWordRuns
        (fun run => match run with | c :: _ => isUpperC c | [] => false)
        "FUNC".data s1
      let s3 := substWordRuns (fun run => run.all isAsciiDigitC) "NUM".data s2
      replaceQuoted sqC "STR" (replaceQuoted dqC "STR" s3)

/-- The structural group for a matching ordered pair of blocks. -/
def mkStructural (fd : FileData) (b : CodeBlock) (ofd : FileData) (ob : CodeBlock) : Dup :=
  { dtype := "structural"
    blocks := some [BlockEntry.structEntry fd.path b.name,
                    BlockEntry.structEntry ofd.path ob.name]
    confidence := 85 / 100 }

/-- Raw nested-loop candidates of detector.find_structural_duplicates: for
every block with a nonempty normalized body, every block of every other
file record (value inequality, as Python dict equality) with the same
normalized body. -/
def structuralCandidates (pf : List FileData) : List Dup :=
  pf.flatMap (fun fd =>
    match fd.blocks with
    | none => []
    | some bs =>
      bs.flatMap (fun b =>
        let normalized := normalize_block b fd
        if normalized = "" then []
        else
          pf.flatMap (fun ofd =>
            if ofd = fd then []
            else
              (ofd.blocks.getD []).flatMap (fun ob =>
                if normalized = normalize_block ob ofd then [mkStructural fd b ofd ob]
                else []))))

/-- Deduplication key of detector._deduplicate_results: Python str of the
sorted list of member renderings. -/
def dedupKey (d : Dup) : String :=
  pyListRepr ((pySorted ((d.blocks.getD []).map bentryRepr)).map pyReprStr)

/-- Embedding of detector._deduplicate_results, first occurrence kept. -/
def dedupAux : List String → List Dup → List Dup
  | _, [] => []
  | seen, d :: rest =>
    if dedupKey d ∈ seen then dedupAux seen rest
    else d :: dedupAux (dedupKey d :: seen) rest

def deduplicate_results (l : List Dup) : List Dup :=
  dedupAux [] l

/-- Embedding of detector.find_structural_duplicates. -/
def find_structural_duplicates (pf : List FileData) : List Dup :=
  deduplicate_results (structuralCandidates pf)

/-! ## Stylesheet matcher (detector.find_css_duplicates) -/

def lowerC (c : Char) : Char :=
  if isUpperC c then Char.ofNat (c.toNat + 32) else c

def pyLower (s : String) : String :=
  String.mk (s.data.map lowerC)

/-- Does cs start with the (already lowercase) pattern, case-insensitively. -/
def startsWithCI : List Char → List Char → Bool
  | [], _ => true
  | _ :: _, [] => false
  | p :: ps, c :: cs => lowerC c = p && startsWithCI ps cs

/-- First index at which the (lowercase) pattern occurs case-insensitively. -/
def findCIAux (pat : List Char) : List Char → Nat → Option Nat
  | [], k => if pat = [] then some k else none
  | cs@(_ :: rest), k => if startsWithCI pat cs then some k else findCIAux pat rest (k + 1)

/-- Matches of the regex <style[^>]*>(.*?)</style> with DOTALL and
IGNORECASE scanned left to right without overlap, as re.finditer yields
them: each result is (start_line, end_line, inner text) with the line
numbers the Python code derives from newline counts before and inside the
captured group.  No match can begin once the remaining text lacks a
closing sequence after the next header, because any later candidate start
searches a subset of the same suffix. -/
def htmlStyleAux : Nat → List Char → Nat → List (Nat × Nat × String)
  | 0, _, _ => []
  | fuel + 1, cs, nlBefore =>
    match findCIAux "<style".data cs 0 with
    | none => []
    | some idx1 =>
      let afterTag := cs.drop (idx1 + 6)
      let hdr := afterTag.takeWhile (fun c => c ≠ '>')
      if hdr.length = afterTag.length then []
      else
        let consumed := idx1 + 6 + hdr.length + 1
        let afterGt := afterTag.drop (hdr.length + 1)
        match findCIAux "</style>".data afterGt 0 with
        | none => []
        | some idx2 =>
          let inner := afterGt.take idx2
          let nlToCapture := nlBefore + (cs.take consumed).count '\n'
          let startLine := nlToCapture + 1
          let endLine := startLine + inner.count '\n'
          (startLine, endLine, String.mk inner) ::
            htmlStyleAux fuel (afterGt.drop (idx2 + 8)) (nlToCapture + inner.count '\n')

def htmlStyleSegments (content : String) : List (Nat × Nat × String) :=
  htmlStyleAux (content.data.length + 1) content.data 0

/-- Satisfaction of re.search of colon, whitespace star, one or more
characters other than semicolon and newline: after some colon, the first
character that is not a newline exists and is not a semicolon (any
whitespace other than newline already qualifies as a matched character). -/
def cssColonHeur : List Char → Bool
  | [] => false
  | c :: rest =>
    (c = ':' && (match rest.dropWhile (fun d => d = '\n') with
                 | [] => false
                 | d :: _ => d ≠ ';')) || cssColonHeur rest

/-- Backtick-delimited template literals scanned left to right, keeping
those whose body passes the CSS heuristic (a property-colon-value shape
plus both braces); result entries are (start_line, end_line, inner text).
The optional css or styled prefix of the source regex does not change
which backtick pairs are captured. -/
def jsCssAux : Nat → List Char → Nat → List (Nat × Nat × String)
  | 0, _, _ => []
  | fuel + 1, cs, nlBefore =>
    match findCIAux [btC] cs 0 with
    | none => []
    | some idx =>
      let afterOpen := cs.drop (idx + 1)
      let inner := afterOpen.takeWhile (fun d => d ≠ btC)
      if inner.length = afterOpen.length then []
      else
        let nlAtCapture := nlBefore + (cs.take (idx + 1)).count '\n'
        let startLine := nlAtCapture + 1
        let endLine := startLine + inner.count '\n'
        let rest := afterOpen.drop (inner.length + 1)
        (if cssColonHeur inner ∧ obC ∈ inner ∧ cbC ∈ inner then
          [(startLine, endLine, String.mk inner)]
        else []) ++ jsCssAux fuel rest (nlAtCapture + inner.count '\n')

def jsCssSegments (content : String) : List (Nat × Nat × String) :=
  jsCssAux (content.data.length + 1) content.data 0

/-- Length of Python str.splitlines of the content (newline model). -/
def pySplitlinesLen (s : String) : Nat :=
  if s.data = [] then 0
  else s.data.count '\n' + (if s.data.getLast? = some '\n' then 0 else 1)

/-- Embedding of detector._extract_css_segments. -/
def extract_css_segments (fd : FileData) : List (Nat × Nat × String) :=
  let content := fd.content
  let ext := pyLower (fd.extension.getD "")
  let language := fd.language.getD ""
  if ext ∈ [".css", ".scss", ".sass", ".less", ".styl"] then
    [(1, (let n := pySplitlinesLen content; if n = 0 then 1 else n), content)]
  else
    (if ext ∈ [".html", ".htm"] ∨ language = "html" then htmlStyleSegments content
     else []) ++
    (if language = "javascript" ∨ ext ∈ [".js", ".jsx", ".ts", ".tsx"] then
      jsCssSegments content
     else [])

/-- Removal of CSS block comments, regex slash-star non-greedy star-slash
with DOTALL: an unterminated comment opener is left in place. -/
def rmCssCommentsAux : Nat → List Char → List Char
  | 0, cs => cs
  | _, [] => []
  | fuel + 1, cs@(c :: rest) =>
    match cs with
    | '/' :: '*' :: rest2 =>
      match findCIAux "*/".data rest2 0 with
      | some i => rmCssCommentsAux fuel (rest2.drop (i + 2))
      | none => cs
    | _ => c :: rmCssCommentsAux fuel rest

def isCssPunct (c : Char) : Bool :=
  c = ':' || c = ';' || c = ',' || c = obC || c = cbC

/-- Removal of whitespace around CSS punctuation, the substitution of
whitespace star, a punctuation character, whitespace star by the bare
punctuation character, applied leftmost first. -/
def stripPunctAux : Nat → List Char → List Char
  | 0, cs => cs
  | _, [] => []
  | fuel + 1, c :: rest =>
    if isPyWs c then
      let ws := rest.takeWhile isPyWs
      match rest.drop ws.length with
      | d :: rest2 =>
        if isCssPunct d then d :: stripPunctAux fuel (rest2.dropWhile isPyWs)
        else c :: stripPunctAux fuel rest
      | [] => c :: stripPunctAux fuel rest
    else if isCssPunct c then c :: stripPunctAux fuel (rest.dropWhile isPyWs)
    else c :: stripPunctAux fuel rest

/-- Embedding of detector._normalize_css_text. -/
def normalize_css_text (css : String) : String :=
  let noComments := String.mk (rmCssCommentsAux css.data.length css.data)
  let collapsed := collapseWs (pyStrip noComments)
  String.mk (stripPunctAux collapsed.data.length collapsed.data)

/-- Hashable items one file contributes to the stylesheet pass. -/
def cssItems (cfg : Config) (fd : FileData) : List (String × BlockEntry) :=
  (extract_css_segments fd).filterMap (fun seg =>
    let text := seg.2.2
    if text = "" then none
    else if text.data.count '\n' + 1 < cfg.min_lines then none
    else
      let norm := normalize_css_text text
      if pyStrip norm = "" then none
      else some (stable_hash_text norm,
                 BlockEntry.span fd.path seg.1 seg.2.1 (pyStrip text)))

/-- Embedding of detector.find_css_duplicates. -/
def find_css_duplicates (cfg : Config) (pf : List FileData) : List Dup :=
  let buckets := bucketsOf (pf.flatMap (cssItems cfg))
  (buckets.filter (fun b => 1 < b.2.length)).map (fun b =>
    { dtype := "css_block"
      hash := some b.1
      blocks := some b.2
      count := some b.2.length
      lines := some (match b.2.head? with
                     | some (BlockEntry.span _ s e _) => max 1 (e + 1 - s)
                     | _ => 1)
      confidence := 1 })

/-! ## Result merger (detector._merge_duplicate_groups) -/

/-- Identity key of a group inside the merger: the sorted file tuple when
a files key is present, else the tuple of member renderings when a blocks
key is present, else the rendering of the whole record. -/
inductive MergeKey where
  | filesK (l : List String)
  | blocksK (l : List String)
  | wholeK (s : String)
deriving DecidableEq

def mergeKey (d : Dup) : MergeKey :=
  match d.files with
  | some fs => MergeKey.filesK (pySorted fs)
  | none =>
    match d.blocks with
    | some bs => MergeKey.blocksK (bs.map bentryRepr)
    | none => MergeKey.wholeK (pyDupRepr d)

/-- First-occurrence deduplication by merge key, insertion order kept. -/
def mergeAux : List MergeKey → List Dup → List Dup
  | _, [] => []
  | seen, d :: rest =>
    if mergeKey d ∈ seen then mergeAux seen rest
    else d :: mergeAux (mergeKey d :: seen) rest

def merge_duplicate_groups (l : List Dup) : List Dup :=
  mergeAux [] l

/-- Embedding of detector.find_duplicates: the five matcher outputs
concatenated in source order, then merged. -/
def find_duplicates (cfg : Config) (pf : List FileData) : List Dup :=
  merge_duplicate_groups
    (find_exact_duplicates cfg pf ++ find_token_duplicates cfg pf ++
     find_fuzzy_duplicates cfg pf ++ find_structural_duplicates pf ++
     find_css_duplicates cfg pf)

/-- The duplicates_found count the analyze entry point reports, the length
of the detector output (src/recator/__init__.py). -/
def duplicates_found (cfg : Config) (pf : List FileData) : Nat :=
  (find_duplicates cfg pf).length

/-- Number of members of a group: the payload list the variant carries. -/
def memberCount (d : Dup) : Nat :=
  match d.files with
  | some fs => fs.length
  | none =>
    match d.blocks with
    | some bs => bs.length
    | none =>
      match d.groups with
      | some gs => gs.length
      | none => 0

/-! ## General lemmas about the merger and the deduplicators -/

theorem mergeAux_sublist (seen : List MergeKey) (l : List Dup) :
    (mergeAux seen l).Sublist l := by
  induction l generalizing seen with
  | nil => simp [mergeAux]
  | cons d rest ih =>
    rw [mergeAux]
    by_cases h : mergeKey d ∈ seen
    · simp only [h, if_pos trivial, if_true]
      exact (ih seen).cons d
    · simp only [h, if_false]
      exact (ih (mergeKey d :: seen)).cons₂ d

theorem mergeAux_mem_first (seen : List MergeKey) (l : List Dup) (g : Dup)
    (hg : g ∈ mergeAux seen l) :
    mergeKey g ∉ seen ∧
      ∃ l1 l2, l = l1 ++ g :: l2 ∧ ∀ g' ∈ l1, mergeKey g' ≠ mergeKey g := by
  induction l generalizing seen with
  | nil => simp [mergeAux] at hg
  | cons d rest ih =>
    rw [mergeAux] at hg
    by_cases h : mergeKey d ∈ seen
    · rw [if_pos h] at hg
      obtain ⟨hks, l1, l2, heq, hfirst⟩ := ih seen hg
      refine ⟨hks, d :: l1, l2, by rw [heq]; rfl, ?_⟩
      intro g' hg'
      rcases List.mem_cons.1 hg' with rfl | hmem
      · intro hkey; exact hks (hkey ▸ h)
      · exact hfirst g' hmem
    · rw [if_neg h] at hg
      rcases List.mem_cons.1 hg with rfl | hmem
      · exact ⟨h, [], rest, rfl, by simp⟩
      · obtain ⟨hks, l1, l2, heq, hfirst⟩ := ih (mergeKey d :: seen) hmem
        have hne : mergeKey g ≠ mergeKey d := fun hk => hks (by rw [hk]; exact List.mem_cons_self _ _)
        refine ⟨fun hs => hks (List.mem_cons_of_mem _ hs), d :: l1, l2, by rw [heq]; rfl, ?_⟩
        intro g' hg'
        rcases List.mem_cons.1 hg' with rfl | hmem'
        · exact fun hk => hne hk.symm
        · exact hfirst g' hmem'

theorem mergeAux_covers (seen : List MergeKey) (l : List Dup) (g : Dup) (hg : g ∈ l) :
    mergeKey g ∈ seen ∨ ∃ g', g' ∈ mergeAux seen l ∧ mergeKey g' = mergeKey g := by
  induction l generalizing seen with
  | nil => simp at hg
  | cons d rest ih =>
    rw [mergeAux]
    by_cases h : mergeKey d ∈ seen
    · rw [if_pos h]
      rcases List.mem_cons.1 hg with rfl | hmem
      · exact Or.inl h
      · exact ih seen hmem
    · rw [if_neg h]
      rcases List.mem_cons.1 hg with rfl | hmem
      · exact Or.inr ⟨g, List.mem_cons_self _ _, rfl⟩
      · rcases ih (mergeKey d :: seen) hmem with hin | ⟨g', hg', hkey⟩
        · rcases List.mem_cons.1 hin with heq | hin'
          · exact Or.inr ⟨d, List.mem_cons_self _ _, heq.symm⟩
          · exact Or.inl hin'
        · exact Or.inr ⟨g', List.mem_cons_of_mem _ hg', hkey⟩

theorem dedupAux_sublist (seen : List String) (l : List Dup) :
    (dedupAux seen l).Sublist l := by
  induction l generalizing seen with
  | nil => simp [dedupAux]
  | cons d rest ih =>
    rw [dedupAux]
    by_cases h : dedupKey d ∈ seen
    · rw [if_pos h]; exact (ih seen).cons d
    · rw [if_neg h]; exact (ih (dedupKey d :: seen)).cons₂ d

/-! ## Shape lemmas for the matchers -/

theorem mem_bucketGroups {κ : Type} [DecidableEq κ] {α : Type}
    (B : List (κ × List α)) (mk : κ × List α → Dup) (g : Dup)
    (hmc : ∀ b : κ × List α, memberCount (mk b) = b.2.length)
    (h : g ∈ (B.filter (fun b => 1 < b.2.length)).map mk) : 2 ≤ memberCount g := by
  obtain ⟨b, hb, rfl⟩ := List.mem_map.1 h
  have h2 : 1 < b.2.length := by
    have := (List.mem_filter.1 hb).2
    exact of_decide_eq_true this
  rw [hmc]
  omega

theorem mem_findExactWholeFile (pf : List FileData) (g : Dup)
    (h : g ∈ findExactWholeFile pf) : 2 ≤ memberCount g := by
  refine mem_bucketGroups _ _ _ (fun b => ?_) h
  simp [memberCount]

theorem mem_find_exact_block (cfg : Config) (pf : List FileData) (g : Dup)
    (h : g ∈ find_exact_block_duplicates cfg pf) : 2 ≤ memberCount g := by
  refine mem_bucketGroups _ _ _ (fun b => ?_) h
  simp [memberCount]

theorem mem_find_token (cfg : Config) (pf : List FileData) (g : Dup)
    (h : g ∈ find_token_duplicates cfg pf) : 2 ≤ memberCount g := by
  refine mem_bucketGroups _ _ _ (fun b => ?_) h
  simp [memberCount]

theorem mem_find_css (cfg : Config) (pf : List FileData) (g : Dup)
    (h : g ∈ find_css_duplicates cfg pf) : 2 ≤ memberCount g := by
  refine mem_bucketGroups _ _ _ (fun b => ?_) h
  simp [memberCount]

theorem fuzzyFilePairs_mem (cfg : Config) (pf : List FileData) (g : Dup)
    (h : g ∈ fuzzyFilePairs cfg pf) :
    ∃ f1 f2, cfg.similarity_threshold ≤ calculate_similarity f1 f2 ∧
      g = mkFuzzy f1 f2 (calculate_similarity f1 f2) := by
  rw [fuzzyFilePairs] at h
  obtain ⟨pr, _, hsome⟩ := List.mem_filterMap.1 h
  by_cases hle : cfg.similarity_threshold ≤ calculate_similarity pr.1 pr.2
  · refine ⟨pr.1, pr.2, hle, ?_⟩
    simp only [if_pos hle, Option.some.injEq] at hsome
    exact hsome.symm
  · simp only [if_neg hle] at hsome
    cases hsome

theorem find_similar_blocks_shape (cfg : Config) (pf : List FileData) (g : Dup)
    (h : g ∈ find_similar_blocks cfg pf) :
    g.dtype = "similar_block" ∧ g.files = none ∧
      ∃ e1 e2 : BlockEntry, g.blocks = some [e1, e2] := by
  rw [find_similar_blocks] at h
  obtain ⟨pr, _, hsome⟩ := List.mem_filterMap.1 h
  by_cases hne : pr.1.2.2 ≠ [] ∧ pr.2.2.2 ≠ []
  · rw [if_pos hne] at hsome
    by_cases hle : cfg.similarity_threshold ≤ token_similarity pr.1.2.2 pr.2.2.2
    · simp only [if_pos hle, Option.some.injEq] at hsome
      subst hsome
      exact ⟨rfl, rfl, _, _, rfl⟩
    · simp only [if_neg hle] at hsome
      cases hsome
  · rw [if_neg hne] at hsome
    cases hsome

theorem structuralCandidates_mem (pf : List FileData) (g : Dup)
    (h : g ∈ structuralCandidates pf) :
    ∃ fd b ofd ob, normalize_block b fd ≠ "" ∧
      normalize_block ob ofd = normalize_block b fd ∧ g = mkStructural fd b ofd ob := by
  rw [structuralCandidates] at h
  obtain ⟨fd, _, h2⟩ := List.mem_flatMap.1 h
  rcases hbs : fd.blocks with _ | bs
  · rw [hbs] at h2; cases h2
  · rw [hbs] at h2
    obtain ⟨b, _, h3⟩ := List.mem_flatMap.1 h2
    by_cases hn : normalize_block b fd = ""
    · simp only [hn, if_pos trivial, if_true] at h3
      cases h3
    · simp only [if_neg hn] at h3
      obtain ⟨ofd, _, h4⟩ := List.mem_flatMap.1 h3
      by_cases hfd : ofd = fd
      · rw [if_pos hfd] at h4; cases h4
      · rw [if_neg hfd] at h4
        obtain ⟨ob, _, h5⟩ := List.mem_flatMap.1 h4
        by_cases heq : normalize_block b fd = normalize_block ob ofd
        · rw [if_pos heq] at h5
          rcases List.mem_singleton.1 h5 with rfl
          exact ⟨fd, b, ofd, ob, hn, heq.symm, rfl⟩
        · rw [if_neg heq] at h5
          cases h5

theorem orderedPairs_mem_get {α : Type} (l : List α) (i j : Nat) (hij : i < j)
    (hj : j < l.length) :
    (l.get ⟨i, Nat.lt_trans hij hj⟩, l.get ⟨j, hj⟩) ∈ orderedPairs l := by
  induction l generalizing i j with
  | nil => simp at hj
  | cons x rest ih =>
    rw [orderedPairs]
    cases i with
    | zero =>
      cases j with
      | zero => exact absurd hij (by omega)
      | succ j' =>
        apply List.mem_append_left
        exact List.mem_map.2 ⟨rest.get ⟨j', by simpa using hj⟩, List.get_mem _ _ _, rfl⟩
    | succ i' =>
      cases j with
      | zero => exact absurd hij (by omega)
      | succ j' =>
        apply List.mem_append_right
        exact ih i' j' (by omega) (by simpa using hj)

theorem fuzzyFilePairs_mem_of (cfg : Config) (pf : List FileData) (i j : Nat)
    (hij : i < j) (hj : j < pf.length)
    (hle : cfg.similarity_threshold ≤
      calculate_similarity (pf.get ⟨i, Nat.lt_trans hij hj⟩) (pf.get ⟨j, hj⟩)) :
    mkFuzzy (pf.get ⟨i, Nat.lt_trans hij hj⟩) (pf.get ⟨j, hj⟩)
      (calculate_similarity (pf.get ⟨i, Nat.lt_trans hij hj⟩) (pf.get ⟨j, hj⟩)) ∈
      fuzzyFilePairs cfg pf := by
  rw [fuzzyFilePairs]
  refine List.mem_filterMap.2 ⟨(pf.get ⟨i, Nat.lt_trans hij hj⟩, pf.get ⟨j, hj⟩),
    orderedPairs_mem_get pf i j hij hj, ?_⟩
  simp only [if_pos hle]

theorem token_similarity_comm (t1 t2 : List String) :
    token_similarity t1 t2 = token_similarity t2 t1 := by
  unfold token_similarity
  by_cases h1 : t1.toFinset = ∅ <;> by_cases h2 : t2.toFinset = ∅ <;>
    simp [h1, h2, Finset.inter_comm, Finset.union_comm]

theorem token_similarity_eq_jaccard (t1 t2 : List String) :
    token_similarity t1 t2 =
      if t1.toFinset = ∅ ∧ t2.toFinset = ∅ then 0
      else ((t1.toFinset ∩ t2.toFinset).card : ℚ) / ((t1.toFinset ∪ t2.toFinset).card : ℚ) := by
  unfold token_similarity
  by_cases h : t1.toFinset = ∅ ∧ t2.toFinset = ∅
  · simp [h]
  · have hu : t1.toFinset ∪ t2.toFinset ≠ ∅ := by
      intro hu
      exact h (by constructor <;> [exact Finset.union_eq_empty.1 hu |>.1;
        exact Finset.union_eq_empty.1 hu |>.2])
    simp [h, hu]

/-! ## Claim theorems -/

theorem mask64_eq_mod (x : Nat) : x &&& 0xFFFFFFFFFFFFFFFF = x % 2 ^ 64 := by
  have h : (0xFFFFFFFFFFFFFFFF : Nat) = 2 ^ 64 - 1 := by norm_num
  rw [h, Nat.and_pow_two_sub_one_eq_mod]

theorem fnv_foldl_mask_eq_mod (data : List Nat) : ∀ h0 : Nat,
    data.foldl (fun h b => ((h ^^^ b) * FNV_64_PRIME) &&& 0xFFFFFFFFFFFFFFFF) h0 =
      data.foldl (fun h b => ((h ^^^ b) * 1099511628211) % 2 ^ 64) h0 := by
  induction data with
  | nil => intro h0; rfl
  | cons b rest ih =>
    intro h0
    simp only [List.foldl_cons]
    rw [mask64_eq_mod]
    exact ih _

/-- Claim C1: the stable hash is the 64-bit FNV-1a digest — fold the
XOR-then-multiply step modulo 2^64 from the offset basis — and token
hashing joins tokens with the 0x1F unit separator before hashing, which
separates inputs with equal concatenations: hashing the tokens ab, c
differs from hashing a, bc. -/
theorem claim1_fnv1a_and_token_sensitivity :
    (∀ data : List Nat,
      fnv1a_64 data =
        data.foldl (fun h b => ((h ^^^ b) * 1099511628211) % 2 ^ 64) 14695981039346656037) ∧
    (∀ tokens : List String,
      stable_hash_tokens tokens = stable_hash_text (String.intercalate unitSep tokens)) ∧
    stable_hash_tokens ["ab", "c"] ≠ stable_hash_tokens ["a", "bc"] := by
  refine ⟨fun data => fnv_foldl_mask_eq_mod data _, fun tokens => rfl, ?_⟩
  decide

/-- Claim C2: the detection pipeline is deterministic — equal input
batches and equal configurations give identical output sequences — and in
particular re-running analysis on an unmodified input yields the same
duplicates_found count. -/
theorem claim2_determinism (cfg1 cfg2 : Config) (pf1 pf2 : List FileData)
    (hc : cfg1 = cfg2) (hp : pf1 = pf2) :
    find_duplicates cfg1 pf1 = find_duplicates cfg2 pf2 ∧
      duplicates_found cfg1 pf1 = duplicates_found cfg2 pf2 := by
  subst hc; subst hp
  exact ⟨rfl, rfl⟩

/-- Witness for claim C2 at a concrete input. -/
theorem claim2_witness :
    find_duplicates {} [] = find_duplicates {} [] ∧
      duplicates_found {} [] = duplicates_found {} [] :=
  claim2_determinism {} {} [] [] rfl rfl

/-- Claim C10: the window matchers are total on short inputs, each half
separately — every file whose token sequence is shorter than min_tokens
contributes no token windows (whatever its line count), and every file
with fewer than min_lines lines contributes no block windows (whatever
its token stream); both window functions are total Lean functions, so the
matchers complete with no out-of-range access. -/
theorem claim10_short_inputs :
    (∀ (cfg : Config) (fd : FileData) (t : List String), fd.tokens = some t →
      t.length < cfg.min_tokens → tokenWindowItems cfg fd = []) ∧
    (∀ (cfg : Config) (fd : FileData), fd.lines.length < cfg.min_lines →
      blockWindowItems cfg fd = []) := by
  constructor
  · intro cfg fd t ht h1
    have h0 : t.length + 1 - cfg.min_tokens = 0 := by omega
    rw [tokenWindowItems, ht]
    dsimp only
    rw [h0]
    rfl
  · intro cfg fd h2
    rw [blockWindowItems]
    have : fd.lines.length + 1 - cfg.min_lines = 0 := by omega
    rw [this]
    rfl

/-- Claim C10 witness input short only in tokens: one token but five
lines, at or above the default min_lines. -/
def c10tokenShortFile : FileData :=
  { path := "tokshort.py", lines := ["l1", "l2", "l3", "l4", "l5"],
    tokens := some ["x"] }

/-- Claim C10 witness input short only in lines: one line but a token
stream well past the default min_tokens would still be allowed; here the
tokens key is present with plenty of room below the threshold being
irrelevant to this half. -/
def c10lineShortFile : FileData :=
  { path := "lineshort.py", lines := ["a"],
    tokens := some ["t1", "t2", "t3", "t4", "t5", "t6", "t7", "t8"] }

/-- Witness for claim C10: each half applied at a concrete file that is
short only in the dimension that half is about. -/
theorem claim10_witness :
    tokenWindowItems {} c10tokenShortFile = [] ∧
      blockWindowItems {} c10lineShortFile = [] :=
  ⟨claim10_short_inputs.1 {} c10tokenShortFile ["x"] rfl (by decide),
   claim10_short_inputs.2 {} c10lineShortFile (by decide)⟩

set_option maxRecDepth 1000000

set_option maxHeartbeats 2000000

/-- Claim C3 counterexample inputs: an exact group and a fuzzy group over
the same file pair, as produced by running the pipeline on two files that
are both byte-identical and maximally similar. -/
def c3exact : Dup :=
  { dtype := "exact", hash := some "h", files := some ["a.py", "b.py"],
    count := some 2, lines := some 3, confidence := 1 }

def c3fuzzy : Dup :=
  { dtype := "fuzzy", files := some ["a.py", "b.py"], similarity := some 1,
    confidence := 1 }

/-- Counterexample to claim C3: an exact group and a fuzzy group — two
different variants — over the same file pair share the sorted-file-path
key, so the merger drops the fuzzy group; groups of different variants can
be merged into one retained entry at the expense of the other. -/
theorem claim3_counterexample :
    c3exact.dtype ≠ c3fuzzy.dtype ∧
      merge_duplicate_groups [c3exact, c3fuzzy] = [c3exact] := by
  constructor
  · decide
  · with_unfolding_all decide

/-- Claim C3 as amended: the merger removes duplicate entries by the
variant-specific identity key — sorted file paths when a files list is
present, else the rendered ordered member list, else the whole-record
rendering — keeping the first occurrence of each key and preserving
insertion order: the output is a sublist of the input, every retained
group is the first with its key, and every input key is represented; but
two groups of different variants that share a key are collapsed into the
single first occurrence. -/
theorem claim3_merger_first_occurrence (l : List Dup) :
    (merge_duplicate_groups l).Sublist l ∧
    (∀ g ∈ merge_duplicate_groups l,
      ∃ l1 l2, l = l1 ++ g :: l2 ∧ ∀ g' ∈ l1, mergeKey g' ≠ mergeKey g) ∧
    (∀ g ∈ l, ∃ g', g' ∈ merge_duplicate_groups l ∧ mergeKey g' = mergeKey g) := by
  refine ⟨mergeAux_sublist [] l, ?_, ?_⟩
  · intro g hg
    exact (mergeAux_mem_first [] l g hg).2
  · intro g hg
    rcases mergeAux_covers [] l g hg with hin | h
    · simp at hin
    · exact h

/-- Witness for claim C3 at a concrete input. -/
theorem claim3_witness :
    (∃ l1 l2, [c3exact] = l1 ++ c3exact :: l2 ∧ ∀ g' ∈ l1, mergeKey g' ≠ mergeKey c3exact) ∧
    (∃ g', g' ∈ merge_duplicate_groups [c3exact] ∧ mergeKey g' = mergeKey c3exact) :=
  ⟨(claim3_merger_first_occurrence [c3exact]).2.1 c3exact (by with_unfolding_all decide),
   (claim3_merger_first_occurrence [c3exact]).2.2 c3exact (by decide)⟩

/-- Claim C5 counterexample inputs: two records whose token key is present
but empty, with identical single-line contents. -/
def c5file1 : FileData := { path := "e1.py", lines := ["x"], tokens := some [] }

def c5file2 : FileData := { path := "e2.py", lines := ["x"], tokens := some [] }

/-- Counterexample to claim C5: for two files whose token sequences are
present but empty, the fuzzy matcher does not fall back to the line-based
ratio — it computes the token-set Jaccard similarity, 0.0 here, while the
line ratio of the identical line sequences is 1.0. -/
theorem claim5_counterexample :
    calculate_similarity c5file1 c5file2 ≠
      line_similarity c5file1.lines c5file2.lines := by
  with_unfolding_all decide

/-- Claim C5 as amended: the fuzzy file-pair matcher falls back to the
line-based sequence-alignment ratio exactly when at least one record has
no token key at all; when both records carry a token sequence — even an
empty one — the similarity is the token-set Jaccard value. -/
theorem claim5_empty_tokens_use_token_path (f1 f2 : FileData) (t1 t2 : List String) :
    (f1.tokens = some t1 → f2.tokens = some t2 →
      calculate_similarity f1 f2 = token_similarity t1 t2) ∧
    ((f1.tokens = none ∨ f2.tokens = none) →
      calculate_similarity f1 f2 = line_similarity f1.lines f2.lines) := by
  constructor
  · intro h1 h2
    rw [calculate_similarity, h1, h2]
  · intro h
    rw [calculate_similarity]
    rcases h with h | h
    · rw [h]
    · rw [h]; cases f1.tokens <;> rfl

def c5fileNoTok : FileData := { path := "n1.py", lines := ["x"] }

/-- Witness for claim C5 at concrete inputs: the token path for
present-but-empty token lists, the line path for an absent token key. -/
theorem claim5_witness :
    calculate_similarity c5file1 c5file2 = token_similarity [] [] ∧
      calculate_similarity c5fileNoTok c5file2 =
        line_similarity c5fileNoTok.lines c5file2.lines :=
  ⟨(claim5_empty_tokens_use_token_path c5file1 c5file2 [] []).1 rfl rfl,
   (claim5_empty_tokens_use_token_path c5fileNoTok c5file2 [] []).2 (Or.inl rfl)⟩

/-- Claim C7 counterexample inputs: two records without token keys whose
line sequences make the SequenceMatcher ratio order-dependent. -/
def c7fileA : FileData := { path := "A.py", lines := ["p", "q", "e", "r", "s"] }

def c7fileB : FileData := { path := "B.py", lines := ["r", "s", "p", "q", "x", "e"] }

/-- Counterexample to claim C7: fuzzy similarity is not symmetric on the
line-based fallback: for these two files the ratio is 6/11 one way and
4/11 the other, because the greedy longest-match recursion of the
sequence aligner picks blocks by earliest position in its first argument. -/
theorem claim7_counterexample :
    calculate_similarity c7fileA c7fileB ≠ calculate_similarity c7fileB c7fileA := by
  with_unfolding_all decide

/-- Claim C7 as amended: the token-set Jaccard similarity is symmetric,
and so is the fuzzy similarity whenever both files carry token sequences;
the line-based fallback is not symmetric in general. -/
theorem claim7_symmetry_token_path :
    (∀ t1 t2 : List String, token_similarity t1 t2 = token_similarity t2 t1) ∧
    (∀ (f1 f2 : FileData) (u1 u2 : List String), f1.tokens = some u1 →
      f2.tokens = some u2 →
      calculate_similarity f1 f2 = calculate_similarity f2 f1) := by
  refine ⟨token_similarity_comm, fun f1 f2 u1 u2 h1 h2 => ?_⟩
  simp only [calculate_similarity, h1, h2]
  exact token_similarity_comm u1 u2

def c7tok1 : FileData := { path := "t1.py", tokens := some ["a", "b"] }

def c7tok2 : FileData := { path := "t2.py", tokens := some ["b"] }

/-- Witness for claim C7 at concrete inputs. -/
theorem claim7_witness :
    token_similarity ["a"] ["a", "b"] = token_similarity ["a", "b"] ["a"] ∧
      calculate_similarity c7tok1 c7tok2 = calculate_similarity c7tok2 c7tok1 :=
  ⟨claim7_symmetry_token_path.1 ["a"] ["a", "b"],
   claim7_symmetry_token_path.2 c7tok1 c7tok2 ["a", "b"] ["b"] rfl rfl⟩

/-- Claim C4 inputs: two parsed records that share the same 6-line
validation block and otherwise differ in their first line. -/
def c4sharedBlock : List String :=
  ["if not email:", "    raise ValueError(msg1)", "if at not in email:",
   "    raise ValueError(msg2)", "domain = email.split(at)", "validate_domain(domain)"]

def c4fileA : FileData :=
  { path := "a.py"
    content := String.intercalate "\n" ("def handle_a():" :: c4sharedBlock)
    lines := "def handle_a():" :: c4sharedBlock
    line_count := 7
    tokens := some []
    blocks := none
    extension := some ".py"
    language := some "python" }

def c4fileB : FileData :=
  { path := "b.py"
    content := String.intercalate "\n" ("def handle_b():" :: c4sharedBlock)
    lines := "def handle_b():" :: c4sharedBlock
    line_count := 7
    tokens := some []
    blocks := none
    extension := some ".py"
    language := some "python" }

def c4config : Config := { min_lines := 4 }

/-- Counterexample to claim C4: on two files sharing an identical 6-line
block with min_lines 4, the pipeline emits three exact_block groups — one
per 4-line sliding window inside the shared block — and none of them has
lines 6, so the batch does not produce exactly one exact_block group with
lines 6. -/
theorem claim4_counterexample :
    ((find_duplicates c4config [c4fileA, c4fileB]).filter
      (fun g => g.dtype = "exact_block")).length = 3 ∧
    ((find_duplicates c4config [c4fileA, c4fileB]).filter
      (fun g => g.dtype = "exact_block" ∧ g.lines = some 6)).length = 0 := by
  with_unfolding_all decide

/-- Claim C4 as amended: for two files that each contain the same
identical 6-line block and otherwise differ, with min_lines 4 the
pipeline produces exactly three exact_block groups — one per qualifying
4-line sliding window within the shared block — each with count 2, lines
4 (the window size) and confidence 1.0, and nothing else. -/
theorem claim4_three_window_groups :
    (find_duplicates c4config [c4fileA, c4fileB]).map
      (fun g => (g.dtype, g.count, g.lines, g.confidence)) =
    [("exact_block", some 2, some 4, 1), ("exact_block", some 2, some 4, 1),
     ("exact_block", some 2, some 4, 1)] := by
  with_unfolding_all decide

/-- Claim C8 inputs: the two example blocks of the claim, hosted in two
distinct parsed records. -/
def c8block1 : CodeBlock := { name := "check_x", body := some "if x > 10: return y" }

def c8block2 : CodeBlock :=
  { name := "check_price", body := some "if price > 10: return total" }

def c8file1 : FileData := { path := "s1.py", blocks := some [c8block1] }

def c8file2 : FileData := { path := "s2.py", blocks := some [c8block2] }

/-- Claim C8: structural normalization applies the four substitutions in
source order, so the two example blocks that differ only in
lowercase-leading identifier names normalize to byte-identical signatures
and the matcher groups them as one structural group with fixed confidence
0.85; and every emitted structural group comes from a pair of blocks with
equal nonempty normalized bodies, so a block with an empty or absent body
is never matched. -/
theorem claim8_structural_normalization :
    normalize_block c8block1 c8file1 = normalize_block c8block2 c8file2 ∧
    (find_structural_duplicates [c8file1, c8file2]).map
        (fun g => (g.dtype, g.blocks, g.confidence)) =
      [("structural",
        some [BlockEntry.structEntry "s1.py" "check_x",
              BlockEntry.structEntry "s2.py" "check_price"], 85 / 100)] ∧
    (∀ (pf : List FileData) (g : Dup), g ∈ find_structural_duplicates pf →
      ∃ fd b ofd ob, normalize_block b fd ≠ "" ∧
        normalize_block ob ofd = normalize_block b fd ∧ g = mkStructural fd b ofd ob) := by
  refine ⟨by with_unfolding_all decide, by with_unfolding_all decide, ?_⟩
  intro pf g hg
  have hcand : g ∈ structuralCandidates pf :=
    (dedupAux_sublist [] (structuralCandidates pf)).subset hg
  exact structuralCandidates_mem pf g hcand

/-- Witness for claim C8 at the concrete two-file batch. -/
theorem claim8_witness :
    ∃ fd b ofd ob, normalize_block b fd ≠ "" ∧
      normalize_block ob ofd = normalize_block b fd ∧
      mkStructural c8file1 c8block1 c8file2 c8block2 = mkStructural fd b ofd ob :=
  claim8_structural_normalization.2.2 [c8file1, c8file2]
    (mkStructural c8file1 c8block1 c8file2 c8block2) (by with_unfolding_all decide)

/-- Claim C6: for every pair of distinct positions i before j whose files
both carry token sequences, the fuzzy group for the pair is emitted if and
only if the similarity is at least the threshold (inclusive boundary), and
that similarity is the Jaccard index of the token sets, 0.0 when both are
empty. -/
theorem claim6_threshold (cfg : Config) (pf : List FileData) (i j : Nat)
    (t1 t2 : List String) (hij : i < j) (hj : j < pf.length)
    (h1 : (pf.get ⟨i, Nat.lt_trans hij hj⟩).tokens = some t1)
    (h2 : (pf.get ⟨j, hj⟩).tokens = some t2) :
    (mkFuzzy (pf.get ⟨i, Nat.lt_trans hij hj⟩) (pf.get ⟨j, hj⟩)
        (token_similarity t1 t2) ∈ find_fuzzy_duplicates cfg pf ↔
      cfg.similarity_threshold ≤ token_similarity t1 t2) ∧
    token_similarity t1 t2 =
      (if t1.toFinset = ∅ ∧ t2.toFinset = ∅ then 0
       else ((t1.toFinset ∩ t2.toFinset).card : ℚ) /
         ((t1.toFinset ∪ t2.toFinset).card : ℚ)) := by
  have hcs : calculate_similarity (pf.get ⟨i, Nat.lt_trans hij hj⟩) (pf.get ⟨j, hj⟩) =
      token_similarity t1 t2 := by
    simp only [calculate_similarity, h1, h2]
  refine ⟨⟨?_, ?_⟩, token_similarity_eq_jaccard t1 t2⟩
  · intro hmem
    rw [find_fuzzy_duplicates] at hmem
    rcases List.mem_append.1 hmem with hA | hB
    · obtain ⟨f1, f2, hle, heq⟩ := fuzzyFilePairs_mem cfg pf _ hA
      have hs := congrArg Dup.similarity heq
      simp only [mkFuzzy, Option.some.injEq] at hs
      rw [hs]
      exact hle
    · have hd := (find_similar_blocks_shape cfg pf _ hB).1
      simp [mkFuzzy] at hd
  · intro hle
    rw [find_fuzzy_duplicates]
    apply List.mem_append_left
    have hmem := fuzzyFilePairs_mem_of cfg pf i j hij hj (by rw [hcs]; exact hle)
    rw [hcs] at hmem
    exact hmem

def c6file1 : FileData := { path := "p1.py", tokens := some ["a"] }

def c6file2 : FileData := { path := "p2.py", tokens := some ["a"] }

/-- Witness for claim C6 at a concrete pair with similarity 1. -/
theorem claim6_witness :
    (mkFuzzy c6file1 c6file2 (token_similarity ["a"] ["a"]) ∈
        find_fuzzy_duplicates {} [c6file1, c6file2] ↔
      ({} : Config).similarity_threshold ≤ token_similarity ["a"] ["a"]) ∧
    token_similarity ["a"] ["a"] =
      (if ["a"].toFinset = ∅ ∧ ["a"].toFinset = ∅ then 0
       else ((["a"].toFinset ∩ ["a"].toFinset).card : ℚ) /
         ((["a"].toFinset ∪ ["a"].toFinset).card : ℚ)) :=
  claim6_threshold {} [c6file1, c6file2] 0 1 ["a"] ["a"] (by decide) (by decide) rfl rfl

/-- Claim C9: every duplicate group emitted by the full detection
pipeline, across all variants, has at least two members. -/
theorem claim9_min_group_size (cfg : Config) (pf : List FileData) (g : Dup)
    (hg : g ∈ find_duplicates cfg pf) : 2 ≤ memberCount g := by
  have hmem : g ∈ find_exact_duplicates cfg pf ++ find_token_duplicates cfg pf ++
      find_fuzzy_duplicates cfg pf ++ find_structural_duplicates pf ++
      find_css_duplicates cfg pf := (mergeAux_sublist [] _).subset hg
  rcases List.mem_append.1 hmem with h4 | hcss
  · rcases List.mem_append.1 h4 with h3 | hstr
    · rcases List.mem_append.1 h3 with h2 | hfuzzy
      · rcases List.mem_append.1 h2 with hexact | htoken
        · rw [find_exact_duplicates] at hexact
          rcases List.mem_append.1 hexact with hwf | hbl
          · exact mem_findExactWholeFile pf g hwf
          · exact mem_find_exact_block cfg pf g hbl
        · exact mem_find_token cfg pf g htoken
      · rw [find_fuzzy_duplicates] at hfuzzy
        rcases List.mem_append.1 hfuzzy with hpair | hsim
        · obtain ⟨f1, f2, _, rfl⟩ := fuzzyFilePairs_mem cfg pf g hpair
          rfl
        · obtain ⟨_, hfiles, e1, e2, hblocks⟩ := find_similar_blocks_shape cfg pf g hsim
          simp [memberCount, hfiles, hblocks]
    · have hcand : g ∈ structuralCandidates pf :=
        (dedupAux_sublist [] (structuralCandidates pf)).subset hstr
      obtain ⟨fd, b, ofd, ob, _, _, rfl⟩ := structuralCandidates_mem pf g hcand
      rfl
  · exact mem_find_css cfg pf g hcss

def c9file1 : FileData :=
  { path := "x1.py", content := "a", lines := [], line_count := 1, tokens := some [] }

def c9file2 : FileData :=
  { path := "x2.py", content := "a", lines := [], line_count := 1, tokens := some [] }

def c9group : Dup :=
  { dtype := "exact", hash := some (compute_content_hash "a"),
    files := some ["x1.py", "x2.py"], count := some 2, lines := some 1,
    confidence := 1 }

/-- Witness for claim C9 at a concrete batch of two identical files. -/
theorem claim9_witness : 2 ≤ memberCount c9group :=
  claim9_min_group_size {} [c9file1, c9file2] c9group (by with_unfolding_all decide)
